import Mathlib

/-!
# Verification of the constant-product rebalancing core (pymaker)

Shallow embedding of `MarketMaker._get_amounts` / `MarketMaker.set_price`
from `src/pymaker/mooniswap.py` and `src/pymaker/uniswap_v2.py`.

Conventions of the embedding:

* A `Wad` fixed-point amount (integer scaled by `10^18`) is represented by
  its underlying integer value (`ℤ`).  The `Wad` class itself (`pymaker`
  numeric module) is not part of the provided sources, so its arithmetic
  is modelled from the spec (§3 DATA MODEL): multiplication and division
  preserve the `10^18` scale and truncate toward zero.
* The square-root pipeline `Wad.from_number(sqrt(w))` is modelled from the
  spec (§4.1, §9): a full-precision integer square root of the unscaled
  product, rescaled to the `10^18` representation
  (`sqrt(x / 10^18) * 10^18 = isqrt(x * 10^18)`).
* The Python true division `int / int` (used for `delta`) is modelled as
  exact division in `ℚ`; a division by zero (`ZeroDivisionError` /
  `decimal.DivisionByZero` in Python) is modelled by `Except.error`.
* The external contract calls (`get_return`, `get_amounts_out`,
  `get_amounts_in`, the transaction objects) are thin I/O excluded by the
  spec; a returned trade records only the direction and input amount that
  `set_price` passes to the swap entry point.
-/

namespace PyMaker

/-- The fixed-point scale: `10^18`. -/
def WAD : ℤ := 1000000000000000000

/-- Modelled from the spec: `Wad * Wad` — the product of the underlying
integers rescaled by `10^18`, truncating toward zero (spec §3:
"truncation matching the reference platform integer division (floor
toward zero for non-negative operands)"). The `Wad` class is not under
`src/`. -/
def wadMul (x y : ℤ) : ℤ := Int.tdiv (x * y) WAD

/-- Modelled from the spec: `Wad / Wad` — the quotient of the underlying
integers rescaled by `10^18`, truncating toward zero. The `Wad` class is
not under `src/`. -/
def wadDiv (x y : ℤ) : ℤ := Int.tdiv (x * WAD) y

/-- Modelled from the spec: the source line `Wad.from_number(sqrt(w))`
(float conversion of a `Wad`, library square root, conversion back),
with the square root taken at full precision as the spec mandates
(§4.1: "integer square root on the unscaled product, then rescaled";
§9).  For `x ≥ 0` this is the integer square root of `x * 10^18`, since
`sqrt(x / 10^18) * 10^18 = sqrt(x * 10^18)`.  Note: the library square
root in the source rounds to nearest and can land on either side of the
exact root, while this full-precision reference truncates; the computed
value of the program can therefore differ from this reference by a few
units in the last place. -/
def wadSqrt (x : ℤ) : ℤ := Int.sqrt (x * WAD)

/-- The two token addresses passed to `set_price` (`first_token`,
`second_token`). -/
inductive Token
  | first
  | second
deriving DecidableEq

namespace Mooniswap

/-- Result of `MarketMaker._get_amounts` (mooniswap.py lines 189-213):
the attribute bag `{first_token_amount_delta, second_token_amount_delta}`. -/
structure Amounts where
  first_token_amount_delta : ℤ
  second_token_amount_delta : ℤ
deriving DecidableEq

/-- `MarketMaker._get_amounts` (mooniswap.py lines 189-213).
`reserved[first_token] = ra`, `reserved[second_token] = rb`. -/
def get_amounts (market_price ra rb : ℤ) : Amounts :=
  let liquidity_pool_constant := wadMul ra rb
  let new_first := wadSqrt (wadMul liquidity_pool_constant market_price)
  let new_second := wadSqrt (wadDiv liquidity_pool_constant market_price)
  if ra < new_first then
    ⟨new_first - ra, rb - new_second⟩
  else
    ⟨ra - new_first, new_second - rb⟩

/-- The swap `set_price` submits: `mooniswap.swap(src, dst, amount, ...)`
(the `min_return` obtained from the live `get_return` quote is external
I/O and not modelled). -/
structure Trade where
  src : Token
  dst : Token
  amount : ℤ
deriving DecidableEq

/-- Runtime error of `set_price`: the Python division by zero
(`ZeroDivisionError` on `market_price.value * 100 / 0`, or
`decimal.DivisionByZero` inside `Wad.__truediv__`). -/
inductive Err
  | zeroDivision
deriving DecidableEq

/-- `MarketMaker.set_price` (mooniswap.py lines 215-246), with the pool
reserves supplied as inputs (`reserves[first_token] = ra`,
`reserves[second_token] = rb`).  Returns the submitted swap, `none` when
the divergence is within tolerance (the trailing `else` branch), or an
error when a division by zero is raised.  The `delta` here is the exact
rational value of the float true division in the source; whenever the
exact delta lies inside the band and `max_delta_on_percent` is below
`2^53 - 100`, the float comparison also stays inside the band (the
bounds `max_delta_on_percent ± 100` are then exactly representable
doubles, a correctly rounded quotient cannot cross a representable
bound, and Python compares a float with an int exactly); conversely an
emitted branch implies the same sign facts for the exact delta. -/
def set_price (market_price ra rb : ℤ) (max_delta_on_percent : ℤ) :
    Except Err (Option Trade) :=
  if rb = 0 then .error .zeroDivision else
  let mooniswap_price := wadDiv ra rb
  if mooniswap_price = 0 then .error .zeroDivision else
  let delta : ℚ := (market_price * 100 : ℚ) / (mooniswap_price : ℚ) - 100
  if (max_delta_on_percent : ℚ) < delta then
    .ok (some ⟨Token.first, Token.second,
      (get_amounts market_price ra rb).first_token_amount_delta⟩)
  else if delta < 0 ∧ (max_delta_on_percent : ℚ) < |delta| then
    .ok (some ⟨Token.second, Token.first,
      (get_amounts market_price ra rb).second_token_amount_delta⟩)
  else
    .ok none

end Mooniswap

namespace UniswapV2

/-- Result of `MarketMaker._get_amounts` (uniswap_v2.py lines 347-357):
the attribute bag `{exact_value, limit}`. -/
structure Amounts where
  exact_value : ℤ
  limit : ℤ
deriving DecidableEq

/-- `MarketMaker._get_amounts` (uniswap_v2.py lines 347-357). -/
def get_amounts (market_price ra rb : ℤ) : Amounts :=
  let liquidity_pool_constant := wadMul ra rb
  let new_first := wadSqrt (wadMul liquidity_pool_constant market_price)
  let new_second := wadSqrt (wadDiv liquidity_pool_constant market_price)
  ⟨ra - new_first, new_second - rb⟩

/-- The swap `set_price` submits.  `exactInput = true` models
`swap_from_exact_amount` (`amount` is the exact input amount);
`exactInput = false` models `swap_to_exact_amount` (`amount` is the exact
output amount).  The slippage bound obtained from the live
`get_amounts_out` / `get_amounts_in` quote is external I/O and not
modelled.  `src` is the first token of the swap path. -/
structure Trade where
  exactInput : Bool
  src : Token
  dst : Token
  amount : ℤ
deriving DecidableEq

/-- Runtime error of `set_price`: the Python division by zero. -/
inductive Err
  | zeroDivision
deriving DecidableEq

/-- `MarketMaker.set_price` (uniswap_v2.py lines 359-389), with the pair
reserves supplied as inputs.  The same remarks as for the Mooniswap
`set_price` apply: the exact rational `delta` is faithful to the float
comparison for tolerances below `2^53 - 100` on in-band inputs, and an
emitted branch implies the same sign facts for the exact delta. -/
def set_price (market_price ra rb : ℤ) (max_delta_on_percent : ℤ) :
    Except Err (Option Trade) :=
  if rb = 0 then .error .zeroDivision else
  let uniswap_price := wadDiv ra rb
  if uniswap_price = 0 then .error .zeroDivision else
  let delta : ℚ := (market_price * 100 : ℚ) / (uniswap_price : ℚ) - 100
  if (max_delta_on_percent : ℚ) < delta then
    .ok (some ⟨true, Token.first, Token.second,
      |(get_amounts market_price ra rb).exact_value|⟩)
  else if delta < 0 ∧ (max_delta_on_percent : ℚ) < |delta| then
    .ok (some ⟨false, Token.second, Token.first,
      |(get_amounts market_price ra rb).exact_value|⟩)
  else
    .ok none

end UniswapV2

/-! ## Basic facts about the fixed-point primitives -/

theorem WAD_pos : (0 : ℤ) < WAD := by decide

theorem wadMul_nonneg {x y : ℤ} (hx : 0 ≤ x) (hy : 0 ≤ y) : 0 ≤ wadMul x y :=
  Int.tdiv_nonneg (mul_nonneg hx hy) (le_of_lt WAD_pos)

theorem wadDiv_nonneg {x y : ℤ} (hx : 0 ≤ x) (hy : 0 ≤ y) : 0 ≤ wadDiv x y :=
  Int.tdiv_nonneg (mul_nonneg hx (le_of_lt WAD_pos)) hy

theorem tdiv_le_tdiv {a b c : ℤ} (hc : 0 < c) (ha : 0 ≤ a) (hab : a ≤ b) :
    Int.tdiv a c ≤ Int.tdiv b c := by
  rw [Int.tdiv_eq_ediv ha (le_of_lt hc), Int.tdiv_eq_ediv (le_trans ha hab) (le_of_lt hc)]
  exact Int.ediv_le_ediv hc hab

theorem wadMul_mul_WAD_le {x y : ℤ} (hx : 0 ≤ x) (hy : 0 ≤ y) :
    wadMul x y * WAD ≤ x * y := by
  rw [wadMul, Int.tdiv_eq_ediv (mul_nonneg hx hy) (le_of_lt WAD_pos)]
  exact Int.ediv_mul_le (x * y) (ne_of_gt WAD_pos)

theorem wadDiv_mul_le {x y : ℤ} (hx : 0 ≤ x) (hy : 0 < y) :
    wadDiv x y * y ≤ x * WAD := by
  rw [wadDiv, Int.tdiv_eq_ediv (mul_nonneg hx (le_of_lt WAD_pos)) (le_of_lt hy)]
  exact Int.ediv_mul_le (x * WAD) (ne_of_gt hy)

theorem wadSqrt_nonneg (x : ℤ) : 0 ≤ wadSqrt x := Int.sqrt_nonneg _

theorem wadSqrt_mul_self_le {x : ℤ} (hx : 0 ≤ x) :
    wadSqrt x * wadSqrt x ≤ x * WAD := by
  have hxw : 0 ≤ x * WAD := mul_nonneg hx (le_of_lt WAD_pos)
  rw [wadSqrt, Int.sqrt]
  have h := Nat.sqrt_le (x * WAD).toNat
  calc ((Nat.sqrt (x * WAD).toNat : ℤ)) * (Nat.sqrt (x * WAD).toNat : ℤ)
      = ((Nat.sqrt (x * WAD).toNat * Nat.sqrt (x * WAD).toNat : ℕ) : ℤ) := by push_cast; ring
    _ ≤ ((x * WAD).toNat : ℤ) := by exact_mod_cast h
    _ = x * WAD := Int.toNat_of_nonneg hxw

theorem wadSqrt_mono {x y : ℤ} (h : x ≤ y) : wadSqrt x ≤ wadSqrt y := by
  rw [wadSqrt, wadSqrt, Int.sqrt, Int.sqrt]
  have : (x * WAD).toNat ≤ (y * WAD).toNat :=
    Int.toNat_le_toNat (by exact mul_le_mul_of_nonneg_right h (le_of_lt WAD_pos))
  exact_mod_cast Nat.sqrt_le_sqrt this

theorem wadSqrt_eq {x v : ℤ} (hv : 0 ≤ v) (h1 : v * v ≤ x * WAD)
    (h2 : x * WAD < (v + 1) * (v + 1)) : wadSqrt x = v := by
  have hxw : 0 ≤ x * WAD := le_trans (mul_nonneg hv hv) h1
  rw [wadSqrt, Int.sqrt]
  have hv' : v = (v.toNat : ℤ) := (Int.toNat_of_nonneg hv).symm
  have hn : ((x * WAD).toNat : ℤ) = x * WAD := Int.toNat_of_nonneg hxw
  have hlo : v.toNat * v.toNat ≤ (x * WAD).toNat := by
    have : ((v.toNat * v.toNat : ℕ) : ℤ) ≤ (((x * WAD).toNat : ℕ) : ℤ) := by
      rw [hn]; push_cast; rw [← hv']; exact h1
    exact_mod_cast this
  have hhi : (x * WAD).toNat < (v.toNat + 1) * (v.toNat + 1) := by
    have : (((x * WAD).toNat : ℕ) : ℤ) < (((v.toNat + 1) * (v.toNat + 1) : ℕ) : ℤ) := by
      rw [hn]; push_cast; rw [← hv']; exact h2
    exact_mod_cast this
  have : v.toNat = Nat.sqrt (x * WAD).toNat :=
    Nat.eq_sqrt.mpr ⟨hlo, hhi⟩
  rw [← this, ← hv']

theorem tdiv_le_tdiv_left {a b c : ℤ} (ha : 0 ≤ a) (hb : 0 < b)
    (hbc : b ≤ c) : Int.tdiv a c ≤ Int.tdiv a b := by
  have hc : 0 < c := lt_of_lt_of_le hb hbc
  rw [Int.tdiv_eq_ediv ha (le_of_lt hc), Int.tdiv_eq_ediv ha (le_of_lt hb),
    Int.le_ediv_iff_mul_le hb]
  calc a / c * b ≤ a / c * c :=
        mul_le_mul_of_nonneg_left hbc (Int.ediv_nonneg ha (le_of_lt hc))
    _ ≤ a := Int.ediv_mul_le a (ne_of_gt hc)

/-- The truncating pipeline never overshoots: the product of the two
target reserves is at most `k * WAD`. -/
theorem new_reserves_mul_le {mp ra rb : ℤ} (hmp : 0 < mp) (hra : 0 ≤ ra)
    (hrb : 0 ≤ rb) :
    wadSqrt (wadMul (wadMul ra rb) mp) * wadSqrt (wadDiv (wadMul ra rb) mp)
      ≤ wadMul ra rb * WAD := by
  have hk0 : 0 ≤ wadMul ra rb := wadMul_nonneg hra hrb
  have hP0 : 0 ≤ wadMul (wadMul ra rb) mp := wadMul_nonneg hk0 (le_of_lt hmp)
  have hQ0 : 0 ≤ wadDiv (wadMul ra rb) mp := wadDiv_nonneg hk0 (le_of_lt hmp)
  have hPle : wadMul (wadMul ra rb) mp * WAD ≤ wadMul ra rb * mp :=
    wadMul_mul_WAD_le hk0 (le_of_lt hmp)
  have hQle : wadDiv (wadMul ra rb) mp * mp ≤ wadMul ra rb * WAD :=
    wadDiv_mul_le hk0 hmp
  have hnb0 : 0 ≤ wadSqrt (wadDiv (wadMul ra rb) mp) := wadSqrt_nonneg _
  have hna : wadSqrt (wadMul (wadMul ra rb) mp) *
      wadSqrt (wadMul (wadMul ra rb) mp) ≤ wadMul (wadMul ra rb) mp * WAD :=
    wadSqrt_mul_self_le hP0
  have hnb : wadSqrt (wadDiv (wadMul ra rb) mp) *
      wadSqrt (wadDiv (wadMul ra rb) mp) ≤ wadDiv (wadMul ra rb) mp * WAD :=
    wadSqrt_mul_self_le hQ0
  set k := wadMul ra rb
  set P := wadMul k mp
  set Q := wadDiv k mp
  set na := wadSqrt P
  set nb := wadSqrt Q
  have h1 : (na * na) * (nb * nb) ≤ (P * WAD) * (Q * WAD) :=
    mul_le_mul hna hnb (mul_nonneg hnb0 hnb0)
      (mul_nonneg hP0 (le_of_lt WAD_pos))
  have h3 : (P * WAD) * (Q * mp) ≤ (k * mp) * (k * WAD) :=
    mul_le_mul hPle hQle (mul_nonneg hQ0 (le_of_lt hmp))
      (mul_nonneg hk0 (le_of_lt hmp))
  have h2 : (P * WAD) * (Q * WAD) * mp ≤ (k * WAD) * (k * WAD) * mp := by
    calc (P * WAD) * (Q * WAD) * mp = (P * WAD) * (Q * mp) * WAD := by ring
      _ ≤ (k * mp) * (k * WAD) * WAD :=
          mul_le_mul_of_nonneg_right h3 (le_of_lt WAD_pos)
      _ = (k * WAD) * (k * WAD) * mp := by ring
  have h4 : (P * WAD) * (Q * WAD) ≤ (k * WAD) * (k * WAD) :=
    le_of_mul_le_mul_right h2 hmp
  have hprod : (na * nb) * (na * nb) ≤ (k * WAD) * (k * WAD) := by
    calc (na * nb) * (na * nb) = (na * na) * (nb * nb) := by ring
      _ ≤ (P * WAD) * (Q * WAD) := h1
      _ ≤ (k * WAD) * (k * WAD) := h4
  by_contra hcon
  push_neg at hcon
  have := mul_self_lt_mul_self (mul_nonneg hk0 (le_of_lt WAD_pos)) hcon
  linarith

/-- The two targets cannot both strictly exceed their current reserves:
if the first target is above `ra`, the second is at most `rb`. -/
theorem second_target_le_of_first_target_gt {mp ra rb : ℤ} (hmp : 0 < mp)
    (hra : 0 ≤ ra) (hrb : 0 ≤ rb)
    (h : ra < wadSqrt (wadMul (wadMul ra rb) mp)) :
    wadSqrt (wadDiv (wadMul ra rb) mp) ≤ rb := by
  by_contra hcon
  push_neg at hcon
  have hmul := new_reserves_mul_le hmp hra hrb
  have hkU : wadMul ra rb * WAD ≤ ra * rb := wadMul_mul_WAD_le hra hrb
  have hna0 : 0 ≤ wadSqrt (wadMul (wadMul ra rb) mp) := wadSqrt_nonneg _
  have hgrow : (ra + 1) * (rb + 1) ≤
      wadSqrt (wadMul (wadMul ra rb) mp) *
        wadSqrt (wadDiv (wadMul ra rb) mp) :=
    mul_le_mul (by omega) (by omega) (by omega) hna0
  have hfin : (ra + 1) * (rb + 1) ≤ ra * rb :=
    le_trans hgrow (le_trans hmul hkU)
  have hexp : (ra + 1) * (rb + 1) = ra * rb + ra + rb + 1 := by ring
  rw [hexp] at hfin
  linarith


/-! ## Projection equations for the trade-size derivation -/

namespace Mooniswap

theorem get_amounts_first (mp ra rb : ℤ) :
    (get_amounts mp ra rb).first_token_amount_delta =
      if ra < wadSqrt (wadMul (wadMul ra rb) mp) then
        wadSqrt (wadMul (wadMul ra rb) mp) - ra
      else
        ra - wadSqrt (wadMul (wadMul ra rb) mp) := by
  simp only [get_amounts]
  split <;> rfl

theorem get_amounts_second (mp ra rb : ℤ) :
    (get_amounts mp ra rb).second_token_amount_delta =
      if ra < wadSqrt (wadMul (wadMul ra rb) mp) then
        rb - wadSqrt (wadDiv (wadMul ra rb) mp)
      else
        wadSqrt (wadDiv (wadMul ra rb) mp) - rb := by
  simp only [get_amounts]
  split <;> rfl

end Mooniswap

namespace UniswapV2

theorem get_amounts_exact_value (mp ra rb : ℤ) :
    (get_amounts mp ra rb).exact_value =
      ra - wadSqrt (wadMul (wadMul ra rb) mp) := rfl

theorem get_amounts_limit (mp ra rb : ℤ) :
    (get_amounts mp ra rb).limit =
      wadSqrt (wadDiv (wadMul ra rb) mp) - rb := rfl

end UniswapV2

/-! ## Concrete square-root values (via the `Nat.sqrt` characterisation) -/

theorem wadSqrt_1100000 :
    wadSqrt 1100000000000000000000000 = 1048808848170151546991 :=
  wadSqrt_eq (by decide) (by decide) (by decide)

theorem wadSqrt_909090 :
    wadSqrt 909090909090909090909090 = 953462589245592315446 :=
  wadSqrt_eq (by decide) (by decide) (by decide)

theorem wadSqrt_800000 :
    wadSqrt 800000000000000000000000 = 894427190999915878563 :=
  wadSqrt_eq (by decide) (by decide) (by decide)

theorem wadSqrt_5000000 :
    wadSqrt 5000000000000000000000000 = 2236067977499789696409 :=
  wadSqrt_eq (by decide) (by decide) (by decide)

theorem wadSqrt_1200000 :
    wadSqrt 1200000000000000000000000 = 1095445115010332226913 :=
  wadSqrt_eq (by decide) (by decide) (by decide)

theorem wadSqrt_four : wadSqrt 4 = 2000000000 :=
  wadSqrt_eq (by decide) (by decide) (by decide)

theorem wadSqrt_one : wadSqrt 1 = 1000000000 :=
  wadSqrt_eq (by decide) (by decide) (by decide)

theorem wadSqrt_zero : wadSqrt 0 = 0 :=
  wadSqrt_eq (by decide) (by decide) (by decide)

theorem wadSqrt_two : wadSqrt 2 = 1414213562 :=
  wadSqrt_eq (by decide) (by decide) (by decide)

theorem wadSqrt_three : wadSqrt 3 = 1732050807 :=
  wadSqrt_eq (by decide) (by decide) (by decide)


/-! ## Concrete evaluations of `set_price` used by several claims -/

theorem mooni_eval_markup10 :
    Mooniswap.set_price 1100000000000000000 1000000000000000000000
      1000000000000000000000 1 =
    .ok (some ⟨Token.first, Token.second, 48808848170151546991⟩) := by
  have hpp : wadDiv 1000000000000000000000 1000000000000000000000
      = 1000000000000000000 := by decide
  have hk : wadMul 1000000000000000000000 1000000000000000000000
      = 1000000000000000000000000 := by decide
  have hP : wadMul 1000000000000000000000000 1100000000000000000
      = 1100000000000000000000000 := by decide
  simp only [Mooniswap.set_price, Mooniswap.get_amounts, hpp, hk, hP,
    wadSqrt_1100000]
  norm_num

theorem uni_eval_markup10 :
    UniswapV2.set_price 1100000000000000000 1000000000000000000000
      1000000000000000000000 1 =
    .ok (some ⟨true, Token.first, Token.second, 48808848170151546991⟩) := by
  have hpp : wadDiv 1000000000000000000000 1000000000000000000000
      = 1000000000000000000 := by decide
  have hk : wadMul 1000000000000000000000 1000000000000000000000
      = 1000000000000000000000000 := by decide
  have hP : wadMul 1000000000000000000000000 1100000000000000000
      = 1100000000000000000000000 := by decide
  simp only [UniswapV2.set_price, UniswapV2.get_amounts, hpp, hk, hP,
    wadSqrt_1100000]
  norm_num

theorem mooni_eval_markdown20 :
    Mooniswap.set_price 400000000000000000 1000000000000000000000
      2000000000000000000000 5 =
    .ok (some ⟨Token.second, Token.first, 236067977499789696409⟩) := by
  have hpp : wadDiv 1000000000000000000000 2000000000000000000000
      = 500000000000000000 := by decide
  have hk : wadMul 1000000000000000000000 2000000000000000000000
      = 2000000000000000000000000 := by decide
  have hP : wadMul 2000000000000000000000000 400000000000000000
      = 800000000000000000000000 := by decide
  have hQ : wadDiv 2000000000000000000000000 400000000000000000
      = 5000000000000000000000000 := by decide
  simp only [Mooniswap.set_price, Mooniswap.get_amounts, hpp, hk, hP, hQ,
    wadSqrt_800000, wadSqrt_5000000]
  norm_num

theorem mooni_eval_underflow :
    Mooniswap.set_price 1200000000000000000 2000000000 2000000000 1 =
    .ok (some ⟨Token.first, Token.second, 0⟩) := by
  have hpp : wadDiv 2000000000 2000000000 = 1000000000000000000 := by decide
  have hk : wadMul 2000000000 2000000000 = 4 := by decide
  have hP : wadMul 4 1200000000000000000 = 4 := by decide
  simp only [Mooniswap.set_price, Mooniswap.get_amounts, hpp, hk, hP,
    wadSqrt_four]
  norm_num

theorem uni_eval_underflow :
    UniswapV2.set_price 1200000000000000000 2000000000 2000000000 1 =
    .ok (some ⟨true, Token.first, Token.second, 0⟩) := by
  have hpp : wadDiv 2000000000 2000000000 = 1000000000000000000 := by decide
  have hk : wadMul 2000000000 2000000000 = 4 := by decide
  have hP : wadMul 4 1200000000000000000 = 4 := by decide
  simp only [UniswapV2.set_price, UniswapV2.get_amounts, hpp, hk, hP,
    wadSqrt_four]
  norm_num

theorem mooni_eval_plateau_lo :
    Mooniswap.set_price 4000000000000000000 1000000000 1000000000 1 =
    .ok (some ⟨Token.first, Token.second, 1000000000⟩) := by
  have hpp : wadDiv 1000000000 1000000000 = 1000000000000000000 := by decide
  have hk : wadMul 1000000000 1000000000 = 1 := by decide
  have hP : wadMul 1 4000000000000000000 = 4 := by decide
  simp only [Mooniswap.set_price, Mooniswap.get_amounts, hpp, hk, hP,
    wadSqrt_four]
  norm_num

theorem mooni_eval_plateau_hi :
    Mooniswap.set_price 4500000000000000000 1000000000 1000000000 1 =
    .ok (some ⟨Token.first, Token.second, 1000000000⟩) := by
  have hpp : wadDiv 1000000000 1000000000 = 1000000000000000000 := by decide
  have hk : wadMul 1000000000 1000000000 = 1 := by decide
  have hP : wadMul 1 4500000000000000000 = 4 := by decide
  simp only [Mooniswap.set_price, Mooniswap.get_amounts, hpp, hk, hP,
    wadSqrt_four]
  norm_num

theorem mooni_eval_sym_sellA :
    Mooniswap.set_price 1200000000000000000 1500000000 1500000000 1 =
    .ok (some ⟨Token.first, Token.second, 85786438⟩) := by
  have hpp : wadDiv 1500000000 1500000000 = 1000000000000000000 := by decide
  have hk : wadMul 1500000000 1500000000 = 2 := by decide
  have hP : wadMul 2 1200000000000000000 = 2 := by decide
  simp only [Mooniswap.set_price, Mooniswap.get_amounts, hpp, hk, hP,
    wadSqrt_two]
  norm_num

theorem mooni_eval_decrease_lo :
    Mooniswap.set_price 2500000000000000000 2000000000 999999999 1 =
    .ok (some ⟨Token.first, Token.second, 585786438⟩) := by
  have hpp : wadDiv 2000000000 999999999 = 2000000002000000002 := by decide
  have hk : wadMul 2000000000 999999999 = 1 := by decide
  have hP : wadMul 1 2500000000000000000 = 2 := by decide
  simp only [Mooniswap.set_price, Mooniswap.get_amounts, hpp, hk, hP,
    wadSqrt_two]
  norm_num

theorem mooni_eval_decrease_hi :
    Mooniswap.set_price 3500000000000000000 2000000000 999999999 1 =
    .ok (some ⟨Token.first, Token.second, 267949193⟩) := by
  have hpp : wadDiv 2000000000 999999999 = 2000000002000000002 := by decide
  have hk : wadMul 2000000000 999999999 = 1 := by decide
  have hP : wadMul 1 3500000000000000000 = 3 := by decide
  simp only [Mooniswap.set_price, Mooniswap.get_amounts, hpp, hk, hP,
    wadSqrt_three]
  norm_num


/-! ## Inversion of `set_price` on a successfully emitted trade -/

namespace Mooniswap

theorem set_price_cases_mooni {mp ra rb tol : ℤ} {t : Trade}
    (h : set_price mp ra rb tol = .ok (some t)) :
    rb ≠ 0 ∧ wadDiv ra rb ≠ 0 ∧
    (((tol : ℚ) < (mp * 100 : ℚ) / ((wadDiv ra rb : ℤ) : ℚ) - 100 ∧
        t = ⟨Token.first, Token.second,
          (get_amounts mp ra rb).first_token_amount_delta⟩) ∨
      ((mp * 100 : ℚ) / ((wadDiv ra rb : ℤ) : ℚ) - 100 < 0 ∧
        (tol : ℚ) < |(mp * 100 : ℚ) / ((wadDiv ra rb : ℤ) : ℚ) - 100| ∧
        t = ⟨Token.second, Token.first,
          (get_amounts mp ra rb).second_token_amount_delta⟩)) := by
  simp only [set_price] at h
  split at h
  · exact Except.noConfusion h
  · next hrb =>
    split at h
    · exact Except.noConfusion h
    · next hpp =>
      refine ⟨hrb, hpp, ?_⟩
      split at h
      · next hc =>
        exact Or.inl ⟨hc, (Option.some.inj (Except.ok.inj h)).symm⟩
      · next hc =>
        split at h
        · next hc2 =>
          exact Or.inr ⟨hc2.1, hc2.2, (Option.some.inj (Except.ok.inj h)).symm⟩
        · exact Option.noConfusion (Except.ok.inj h)

end Mooniswap

namespace UniswapV2

theorem set_price_cases_uni {mp ra rb tol : ℤ} {t : Trade}
    (h : set_price mp ra rb tol = .ok (some t)) :
    rb ≠ 0 ∧ wadDiv ra rb ≠ 0 ∧
    (((tol : ℚ) < (mp * 100 : ℚ) / ((wadDiv ra rb : ℤ) : ℚ) - 100 ∧
        t = ⟨true, Token.first, Token.second,
          |(get_amounts mp ra rb).exact_value|⟩) ∨
      ((mp * 100 : ℚ) / ((wadDiv ra rb : ℤ) : ℚ) - 100 < 0 ∧
        (tol : ℚ) < |(mp * 100 : ℚ) / ((wadDiv ra rb : ℤ) : ℚ) - 100| ∧
        t = ⟨false, Token.second, Token.first,
          |(get_amounts mp ra rb).exact_value|⟩)) := by
  simp only [set_price] at h
  split at h
  · exact Except.noConfusion h
  · next hrb =>
    split at h
    · exact Except.noConfusion h
    · next hpp =>
      refine ⟨hrb, hpp, ?_⟩
      split at h
      · next hc =>
        exact Or.inl ⟨hc, (Option.some.inj (Except.ok.inj h)).symm⟩
      · next hc =>
        split at h
        · next hc2 =>
          exact Or.inr ⟨hc2.1, hc2.2, (Option.some.inj (Except.ok.inj h)).symm⟩
        · exact Option.noConfusion (Except.ok.inj h)

end UniswapV2

/-! ## C1 -/

/-- C1: for reserves `ra > 0`, `rb > 0` and `market_price > 0`, the
trade-size derivation targets `new_a = sqrt(k * market_price)` and
`new_b = sqrt(k / market_price)` with `k = ra * rb` (all in wad
arithmetic), and whenever `new_a > ra`, an emitted trade that sells the
first token has input amount `new_a - ra` — in both the Mooniswap and the
Uniswap implementation. -/
theorem C1_sell_first_input_amount (mp ra rb tol : ℤ) (t : Mooniswap.Trade)
    (u : UniswapV2.Trade)
    (hmp : 0 < mp) (hra : 0 < ra) (hrb : 0 < rb)
    (hna : ra < wadSqrt (wadMul (wadMul ra rb) mp)) :
    (Mooniswap.set_price mp ra rb tol = .ok (some t) → t.src = Token.first →
      t.amount = wadSqrt (wadMul (wadMul ra rb) mp) - ra) ∧
    (UniswapV2.set_price mp ra rb tol = .ok (some u) → u.src = Token.first →
      u.amount = wadSqrt (wadMul (wadMul ra rb) mp) - ra) := by
  constructor
  · intro hm ht
    rcases Mooniswap.set_price_cases_mooni hm with ⟨-, -, ⟨-, hteq⟩ | ⟨-, -, hteq⟩⟩
    · rw [hteq]
      exact (Mooniswap.get_amounts_first mp ra rb).trans (if_pos hna)
    · rw [hteq] at ht
      exact absurd ht (by simp)
  · intro hu hus
    rcases UniswapV2.set_price_cases_uni hu with ⟨-, -, ⟨-, hteq⟩ | ⟨-, -, hteq⟩⟩
    · rw [hteq]
      show |(UniswapV2.get_amounts mp ra rb).exact_value| = _
      rw [UniswapV2.get_amounts_exact_value, abs_sub_comm,
        abs_of_nonneg (by omega)]
    · rw [hteq] at hus
      exact absurd hus (by simp)

/-- C1 witness: reserves `(1000, 1000)` (wad), market price `1.1`,
tolerance `1 %` — spec §8 scenario 2. -/
theorem C1_witness :
    (1000000000000000000000 : ℤ) <
      wadSqrt (wadMul (wadMul 1000000000000000000000 1000000000000000000000)
        1100000000000000000) ∧
    (Mooniswap.Trade.mk Token.first Token.second 48808848170151546991).amount =
      wadSqrt (wadMul (wadMul 1000000000000000000000 1000000000000000000000)
        1100000000000000000) - 1000000000000000000000 ∧
    (UniswapV2.Trade.mk true Token.first Token.second
        48808848170151546991).amount =
      wadSqrt (wadMul (wadMul 1000000000000000000000 1000000000000000000000)
        1100000000000000000) - 1000000000000000000000 := by
  have hna : (1000000000000000000000 : ℤ) <
      wadSqrt (wadMul (wadMul 1000000000000000000000 1000000000000000000000)
        1100000000000000000) := by
    rw [(by decide : wadMul (wadMul 1000000000000000000000
        1000000000000000000000) 1100000000000000000
        = 1100000000000000000000000), wadSqrt_1100000]
    decide
  obtain ⟨h1, h2⟩ := C1_sell_first_input_amount 1100000000000000000
    1000000000000000000000 1000000000000000000000 1 _ _
    (by decide) (by decide) (by decide) hna
  exact ⟨hna, h1 mooni_eval_markup10 rfl, h2 uni_eval_markup10 rfl⟩

/-! ## C2 -/

/-- C2 counterexample, two failures of the claim.  (1) Spec §8 scenario 3
(reserves `(1000 A, 2000 B)`, market price `0.4`, tolerance `5 %`):
`new_a <= ra` holds and the emitted trade does sell token B, but its
input amount is `new_b - rb = 236.067... > 0`, whereas the claim requires
`rb - new_b = -236.067...`.  (2) Reserves `(1.5e-9, 1.5e-9)` wad tokens,
market price `1.2`, tolerance `1 %`: truncation gives `new_a <= ra` even
though the market price is above the pool price, and the emitted trade
sells token A (amount `ra - new_a = 85786438`), not token B as the claim
asserts. -/
theorem C2_counterexample :
    Mooniswap.set_price 400000000000000000 1000000000000000000000
        2000000000000000000000 5 =
      .ok (some ⟨Token.second, Token.first, 236067977499789696409⟩) ∧
    wadSqrt (wadMul (wadMul 1000000000000000000000 2000000000000000000000)
        400000000000000000) ≤ 1000000000000000000000 ∧
    (2000000000000000000000 : ℤ) -
        wadSqrt (wadDiv (wadMul 1000000000000000000000
          2000000000000000000000) 400000000000000000)
      = -236067977499789696409 ∧
    Mooniswap.set_price 1200000000000000000 1500000000 1500000000 1 =
      .ok (some ⟨Token.first, Token.second, 85786438⟩) ∧
    wadSqrt (wadMul (wadMul 1500000000 1500000000) 1200000000000000000)
      ≤ 1500000000 := by
  refine ⟨mooni_eval_markdown20, ?_, ?_, mooni_eval_sym_sellA, ?_⟩
  · rw [(by decide : wadMul (wadMul 1000000000000000000000
        2000000000000000000000) 400000000000000000
        = 800000000000000000000000), wadSqrt_800000]
    decide
  · rw [(by decide : wadDiv (wadMul 1000000000000000000000
        2000000000000000000000) 400000000000000000
        = 5000000000000000000000000), wadSqrt_5000000]
    decide
  · rw [(by decide : wadMul (wadMul 1500000000 1500000000)
        1200000000000000000 = 2), wadSqrt_two]
    decide

/-- C2 amended: in the symmetric case `new_a <= ra`, whenever the
evaluation emits a trade that sells the second token, it sells it for
the first token with input amount `new_b - rb` (not `rb - new_b`: spec
§8 scenario 3 and §9 treat the concrete tests as authoritative over the
narrative sign).  The condition `new_a <= ra` does not by itself force
the sell-B direction: with truncated arithmetic the market price can
still exceed the pool price, in which case a sell-A trade is emitted
instead (second part of the counterexample). -/
theorem C2_amended_sell_second_input_amount (mp ra rb tol : ℤ)
    (t : Mooniswap.Trade)
    (hmp : 0 < mp) (hra : 0 < ra) (hrb : 0 < rb)
    (hna : wadSqrt (wadMul (wadMul ra rb) mp) ≤ ra)
    (hm : Mooniswap.set_price mp ra rb tol = .ok (some t))
    (ht : t.src = Token.second) :
    t.dst = Token.first ∧
    t.amount = wadSqrt (wadDiv (wadMul ra rb) mp) - rb := by
  rcases Mooniswap.set_price_cases_mooni hm with ⟨-, -, ⟨-, hteq⟩ | ⟨-, -, hteq⟩⟩
  · rw [hteq] at ht
    exact absurd ht (by simp)
  · rw [hteq]
    refine ⟨rfl, ?_⟩
    exact (Mooniswap.get_amounts_second mp ra rb).trans
      (if_neg (not_lt.mpr hna))

/-- C2 witness for the amended claim: spec §8 scenario 3. -/
theorem C2_witness :
    Mooniswap.set_price 400000000000000000 1000000000000000000000
        2000000000000000000000 5 =
      .ok (some ⟨Token.second, Token.first, 236067977499789696409⟩) ∧
    (Mooniswap.Trade.mk Token.second Token.first
        236067977499789696409).dst = Token.first ∧
    (Mooniswap.Trade.mk Token.second Token.first
        236067977499789696409).amount =
      wadSqrt (wadDiv (wadMul 1000000000000000000000
        2000000000000000000000) 400000000000000000)
        - 2000000000000000000000 := by
  have hna : wadSqrt (wadMul (wadMul 1000000000000000000000
      2000000000000000000000) 400000000000000000)
      ≤ 1000000000000000000000 := by
    rw [(by decide : wadMul (wadMul 1000000000000000000000
        2000000000000000000000) 400000000000000000
        = 800000000000000000000000), wadSqrt_800000]
    decide
  obtain ⟨h1, h2⟩ := C2_amended_sell_second_input_amount 400000000000000000
    1000000000000000000000 2000000000000000000000 5 _
    (by decide) (by decide) (by decide) hna mooni_eval_markdown20 rfl
  exact ⟨mooni_eval_markdown20, h1, h2⟩

/-! ## C3 -/

/-- C3 counterexample: reserves `ra = 1`, `rb = 2 * 10^18` (both positive),
tolerance `100`, market price `10^18`.  The truncated pool price is `0`,
the in-band hypothesis `|mp / pool_price - 1| * 100 <= tolerance` holds
(with division by zero read as `0` in `ℚ`), yet `set_price` raises a
division-by-zero error instead of returning `None`. -/
theorem C3_counterexample :
    (0 : ℤ) < 1000000000000000000 ∧ (0 : ℤ) < 1 ∧
    (0 : ℤ) < 2000000000000000000 ∧ (0 : ℤ) ≤ 100 ∧
    |(1000000000000000000 : ℚ) /
        ((wadDiv 1 2000000000000000000 : ℤ) : ℚ) - 1| * 100 ≤ (100 : ℚ) ∧
    Mooniswap.set_price 1000000000000000000 1 2000000000000000000 100 =
      .error .zeroDivision := by
  have h : wadDiv 1 2000000000000000000 = 0 := by decide
  refine ⟨by decide, by decide, by decide, by decide, ?_, ?_⟩
  · rw [h]
    norm_num
  · simp only [Mooniswap.set_price, h]
    norm_num

/-- C3 amended: the dead zone returns `None`, additionally assuming that
the truncated pool price `wadDiv ra rb` is nonzero (otherwise the code
raises a division-by-zero error) and that the tolerance is below
`2^53 - 100 = 9007199254740892`: if
`|market_price / pool_price - 1| * 100 <= tolerance`, both
implementations return `None` and emit no trade.  The tolerance bound
makes the exact-`ℚ` delta of this model faithful to the float comparison
of the source: below it, `tolerance ± 100` are exactly representable
doubles, a correctly rounded quotient cannot cross a representable
bound, and the Python float-int comparison is exact; for tolerances of
the order of `2^59` the float delta can round upward across the boundary
and the program trades on an in-band input. -/
theorem C3_amended_dead_zone (mp ra rb tol : ℤ)
    (hmp : 0 < mp) (hra : 0 < ra) (hrb : 0 < rb) (htol : 0 ≤ tol)
    (htolb : tol < 9007199254740892)
    (hpp : wadDiv ra rb ≠ 0)
    (hband : |(mp : ℚ) / ((wadDiv ra rb : ℤ) : ℚ) - 1| * 100 ≤ (tol : ℚ)) :
    Mooniswap.set_price mp ra rb tol = .ok none ∧
    UniswapV2.set_price mp ra rb tol = .ok none := by
  have hdelta : |(mp * 100 : ℚ) / ((wadDiv ra rb : ℤ) : ℚ) - 100| ≤ (tol : ℚ) := by
    have hid : ((mp : ℚ) / ((wadDiv ra rb : ℤ) : ℚ) - 1) * 100
        = (mp * 100 : ℚ) / ((wadDiv ra rb : ℤ) : ℚ) - 100 := by ring
    calc |(mp * 100 : ℚ) / ((wadDiv ra rb : ℤ) : ℚ) - 100|
        = |((mp : ℚ) / ((wadDiv ra rb : ℤ) : ℚ) - 1) * 100| := by rw [hid]
      _ = |(mp : ℚ) / ((wadDiv ra rb : ℤ) : ℚ) - 1| * 100 := by
          rw [abs_mul]; norm_num
      _ ≤ (tol : ℚ) := hband
  have h1 : ¬ ((tol : ℚ) < (mp * 100 : ℚ) / ((wadDiv ra rb : ℤ) : ℚ) - 100) :=
    not_lt.mpr (le_trans (le_abs_self _) hdelta)
  have h2 : ¬ ((mp * 100 : ℚ) / ((wadDiv ra rb : ℤ) : ℚ) - 100 < 0 ∧
      (tol : ℚ) < |(mp * 100 : ℚ) / ((wadDiv ra rb : ℤ) : ℚ) - 100|) :=
    fun hc => absurd hdelta (not_le.mpr hc.2)
  constructor
  · simp only [Mooniswap.set_price]
    rw [if_neg (by omega : ¬ rb = 0), if_neg hpp, if_neg h1, if_neg h2]
  · simp only [UniswapV2.set_price]
    rw [if_neg (by omega : ¬ rb = 0), if_neg hpp, if_neg h1, if_neg h2]

/-- C3 witness for the amended claim: spec §8 scenario 1 — balanced
reserves, market price equal to the pool price, tolerance `1 %`. -/
theorem C3_witness :
    wadDiv 1000000000000000000000 1000000000000000000000 ≠ 0 ∧
    |(1000000000000000000 : ℚ) /
        ((wadDiv 1000000000000000000000 1000000000000000000000 : ℤ) : ℚ)
        - 1| * 100 ≤ (1 : ℚ) ∧
    Mooniswap.set_price 1000000000000000000 1000000000000000000000
      1000000000000000000000 1 = .ok none ∧
    UniswapV2.set_price 1000000000000000000 1000000000000000000000
      1000000000000000000000 1 = .ok none := by
  have hpp : wadDiv 1000000000000000000000 1000000000000000000000
      = 1000000000000000000 := by decide
  have hband : |(1000000000000000000 : ℚ) /
      ((wadDiv 1000000000000000000000 1000000000000000000000 : ℤ) : ℚ)
      - 1| * 100 ≤ (1 : ℚ) := by
    rw [hpp]
    norm_num
  obtain ⟨h1, h2⟩ := C3_amended_dead_zone 1000000000000000000
    1000000000000000000000 1000000000000000000000 1
    (by decide) (by decide) (by decide) (by decide) (by decide)
    (by rw [hpp]; decide) hband
  exact ⟨by rw [hpp]; decide, hband, h1, h2⟩


/-! ## C4 -/

/-- C4: outside the tolerance band, an emitted trade sells the first token
for the second exactly when `market_price > pool_price`, and the second
token for the first exactly when `market_price < pool_price` — in both
implementations (pool price taken as the truncated `wadDiv ra rb` the
code computes). -/
theorem C4_direction_correct (mp ra rb tol : ℤ) (t : Mooniswap.Trade)
    (u : UniswapV2.Trade)
    (hmp : 0 < mp) (hra : 0 < ra) (hrb : 0 < rb) (htol : 0 ≤ tol)
    (hband : (tol : ℚ) <
      |(mp : ℚ) / ((wadDiv ra rb : ℤ) : ℚ) - 1| * 100) :
    (Mooniswap.set_price mp ra rb tol = .ok (some t) →
      (t.src = Token.first ∧ t.dst = Token.second ∧ wadDiv ra rb < mp) ∨
      (t.src = Token.second ∧ t.dst = Token.first ∧ mp < wadDiv ra rb)) ∧
    (UniswapV2.set_price mp ra rb tol = .ok (some u) →
      (u.src = Token.first ∧ u.dst = Token.second ∧ wadDiv ra rb < mp) ∨
      (u.src = Token.second ∧ u.dst = Token.first ∧ mp < wadDiv ra rb)) := by
  have hppQ : ∀ h0 : wadDiv ra rb ≠ 0, (0 : ℚ) < ((wadDiv ra rb : ℤ) : ℚ) := by
    intro h0
    have : 0 < wadDiv ra rb :=
      lt_of_le_of_ne (wadDiv_nonneg (le_of_lt hra) (le_of_lt hrb))
        (Ne.symm h0)
    exact_mod_cast this
  constructor
  · intro hm
    rcases Mooniswap.set_price_cases_mooni hm with
      ⟨-, hpp0, ⟨hc, hteq⟩ | ⟨hc, -, hteq⟩⟩
    · have hlt : wadDiv ra rb < mp := by
        have h100 : (100 : ℚ) < (mp * 100 : ℚ) / ((wadDiv ra rb : ℤ) : ℚ) := by
          have : (0 : ℚ) ≤ (tol : ℚ) := by exact_mod_cast htol
          linarith
        have := (lt_div_iff (hppQ hpp0)).mp h100
        have hcast : ((wadDiv ra rb : ℤ) : ℚ) < (mp : ℚ) := by linarith
        exact_mod_cast hcast
      rw [hteq]
      exact Or.inl ⟨rfl, rfl, hlt⟩
    · have hlt : mp < wadDiv ra rb := by
        have h100 : (mp * 100 : ℚ) / ((wadDiv ra rb : ℤ) : ℚ) < 100 := by
          linarith
        have := (div_lt_iff (hppQ hpp0)).mp h100
        have hcast : (mp : ℚ) < ((wadDiv ra rb : ℤ) : ℚ) := by linarith
        exact_mod_cast hcast
      rw [hteq]
      exact Or.inr ⟨rfl, rfl, hlt⟩
  · intro hu
    rcases UniswapV2.set_price_cases_uni hu with
      ⟨-, hpp0, ⟨hc, hteq⟩ | ⟨hc, -, hteq⟩⟩
    · have hlt : wadDiv ra rb < mp := by
        have h100 : (100 : ℚ) < (mp * 100 : ℚ) / ((wadDiv ra rb : ℤ) : ℚ) := by
          have : (0 : ℚ) ≤ (tol : ℚ) := by exact_mod_cast htol
          linarith
        have := (lt_div_iff (hppQ hpp0)).mp h100
        have hcast : ((wadDiv ra rb : ℤ) : ℚ) < (mp : ℚ) := by linarith
        exact_mod_cast hcast
      rw [hteq]
      exact Or.inl ⟨rfl, rfl, hlt⟩
    · have hlt : mp < wadDiv ra rb := by
        have h100 : (mp * 100 : ℚ) / ((wadDiv ra rb : ℤ) : ℚ) < 100 := by
          linarith
        have := (div_lt_iff (hppQ hpp0)).mp h100
        have hcast : (mp : ℚ) < ((wadDiv ra rb : ℤ) : ℚ) := by linarith
        exact_mod_cast hcast
      rw [hteq]
      exact Or.inr ⟨rfl, rfl, hlt⟩

/-- C4 witness: spec §8 scenario 2 (market price 10 % above the pool
price, tolerance 1 %): the emitted trades sell the first token. -/
theorem C4_witness :
    (1 : ℚ) < |(1100000000000000000 : ℚ) /
      ((wadDiv 1000000000000000000000 1000000000000000000000 : ℤ) : ℚ)
      - 1| * 100 ∧
    (((Mooniswap.Trade.mk Token.first Token.second
          48808848170151546991).src = Token.first ∧
      (Mooniswap.Trade.mk Token.first Token.second
          48808848170151546991).dst = Token.second ∧
      wadDiv 1000000000000000000000 1000000000000000000000
        < 1100000000000000000) ∨
     ((Mooniswap.Trade.mk Token.first Token.second
          48808848170151546991).src = Token.second ∧
      (Mooniswap.Trade.mk Token.first Token.second
          48808848170151546991).dst = Token.first ∧
      (1100000000000000000 : ℤ)
        < wadDiv 1000000000000000000000 1000000000000000000000)) ∧
    (((UniswapV2.Trade.mk true Token.first Token.second
          48808848170151546991).src = Token.first ∧
      (UniswapV2.Trade.mk true Token.first Token.second
          48808848170151546991).dst = Token.second ∧
      wadDiv 1000000000000000000000 1000000000000000000000
        < 1100000000000000000) ∨
     ((UniswapV2.Trade.mk true Token.first Token.second
          48808848170151546991).src = Token.second ∧
      (UniswapV2.Trade.mk true Token.first Token.second
          48808848170151546991).dst = Token.first ∧
      (1100000000000000000 : ℤ)
        < wadDiv 1000000000000000000000 1000000000000000000000)) := by
  have hpp : wadDiv 1000000000000000000000 1000000000000000000000
      = 1000000000000000000 := by decide
  have hband : (1 : ℚ) < |(1100000000000000000 : ℚ) /
      ((wadDiv 1000000000000000000000 1000000000000000000000 : ℤ) : ℚ)
      - 1| * 100 := by
    have hb0 : (1100000000000000000 : ℚ) /
        ((1000000000000000000 : ℤ) : ℚ) - 1 = 1 / 10 := by norm_num
    rw [hpp, hb0, abs_of_nonneg (by norm_num : (0 : ℚ) ≤ 1 / 10)]
    norm_num
  obtain ⟨h1, h2⟩ := C4_direction_correct 1100000000000000000
    1000000000000000000000 1000000000000000000000 1 _ _
    (by decide) (by decide) (by decide) (by decide) hband
  exact ⟨hband, h1 mooni_eval_markup10, h2 uni_eval_markup10⟩

/-! ## C5 -/

/-- C5: at reserves `(2*10^-9, 2*10^-9)` wad tokens, market price `1.2`
and tolerance `1 %`, the divergence (20 %) is well outside the band but
the square-root-derived input amount truncates to zero; both
implementations nevertheless emit a zero-amount trade instead of
returning `None` as the spec requires. -/
theorem C5_zero_amount_trade_emitted :
    Mooniswap.set_price 1200000000000000000 2000000000 2000000000 1 =
      .ok (some ⟨Token.first, Token.second, 0⟩) ∧
    UniswapV2.set_price 1200000000000000000 2000000000 2000000000 1 =
      .ok (some ⟨true, Token.first, Token.second, 0⟩) :=
  ⟨mooni_eval_underflow, uni_eval_underflow⟩

/-! ## C6 -/

/-- C6: spec §8 scenario 2 — a trade is emitted, and even under the
full-precision square-root pipeline the spec mandates, the theoretical
post-trade product `wadMul new_a new_b` (in wad arithmetic) misses `k`
by 1247 units of least precision — far outside the claimed 1 unit.  The
source computes the square roots through IEEE-754 doubles instead; their
round-to-nearest results overshoot at this input, and exact simulation
of that pipeline puts the product the program computes about
`1.7 * 10^7` units of least precision above `k`.  The invariant bound
fails either way. -/
theorem C6_invariant_deviation_scenario2 :
    Mooniswap.set_price 1100000000000000000 1000000000000000000000
        1000000000000000000000 1 =
      .ok (some ⟨Token.first, Token.second, 48808848170151546991⟩) ∧
    ¬ (|wadMul
          (wadSqrt (wadMul (wadMul 1000000000000000000000
            1000000000000000000000) 1100000000000000000))
          (wadSqrt (wadDiv (wadMul 1000000000000000000000
            1000000000000000000000) 1100000000000000000))
        - wadMul 1000000000000000000000 1000000000000000000000| ≤ 1) := by
  refine ⟨mooni_eval_markup10, ?_⟩
  rw [(by decide : wadMul 1000000000000000000000 1000000000000000000000
        = 1000000000000000000000000),
      (by decide : wadMul 1000000000000000000000000 1100000000000000000
        = 1100000000000000000000000),
      (by decide : wadDiv 1000000000000000000000000 1100000000000000000
        = 909090909090909090909090),
      wadSqrt_1100000, wadSqrt_909090,
      (by decide : wadMul 1048808848170151546991 953462589245592315446
        = 999999999999999999998753)]
  norm_num

/-! ## C7 -/

/-- C7: the value the full-precision square-root pipeline mandated by the
spec produces at reserves `(1000, 1000)` and market price `1.1`:
`sqrt(1.1 * 10^6) = 1048.808848170151546991` to 18 fixed-point places.
The source instead computes the square root through an IEEE-754 double
(`math.sqrt` on `Wad.__float__`), which cannot represent this value. -/
theorem C7_full_precision_sqrt_value :
    wadSqrt (wadMul (wadMul 1000000000000000000000 1000000000000000000000)
      1100000000000000000) = 1048808848170151546991 := by
  rw [(by decide : wadMul (wadMul 1000000000000000000000
      1000000000000000000000) 1100000000000000000
      = 1100000000000000000000000)]
  exact wadSqrt_1100000

/-! ## C8 -/

/-- C8: when either reserve is zero, `set_price` raises a
division-by-zero error (the caller error the spec documents as
`InvalidInput`) and returns neither a trade nor `None` — in both
implementations. -/
theorem C8_zero_reserve_raises (mp ra rb tol : ℤ) (h : ra = 0 ∨ rb = 0) :
    Mooniswap.set_price mp ra rb tol = .error .zeroDivision ∧
    UniswapV2.set_price mp ra rb tol = .error .zeroDivision := by
  constructor
  · rcases h with h | h
    · by_cases hb : rb = 0
      · simp [Mooniswap.set_price, hb]
      · subst h
        have h0 : wadDiv 0 rb = 0 := by
          rw [wadDiv, zero_mul, Int.zero_tdiv]
        simp [Mooniswap.set_price, hb, h0]
    · simp [Mooniswap.set_price, h]
  · rcases h with h | h
    · by_cases hb : rb = 0
      · simp [UniswapV2.set_price, hb]
      · subst h
        have h0 : wadDiv 0 rb = 0 := by
          rw [wadDiv, zero_mul, Int.zero_tdiv]
        simp [UniswapV2.set_price, hb, h0]
    · simp [UniswapV2.set_price, h]

/-- C8 witness: spec §8 scenario 4, `reserves = (A: 0, B: 1000)`. -/
theorem C8_witness :
    ((0 : ℤ) = 0 ∨ (1000000000000000000000 : ℤ) = 0) ∧
    Mooniswap.set_price 1000000000000000000 0 1000000000000000000000 1 =
      .error .zeroDivision ∧
    UniswapV2.set_price 1000000000000000000 0 1000000000000000000000 1 =
      .error .zeroDivision := by
  obtain ⟨h1, h2⟩ := C8_zero_reserve_raises 1000000000000000000 0
    1000000000000000000000 1 (Or.inl rfl)
  exact ⟨Or.inl rfl, h1, h2⟩

/-! ## C9 -/

/-- C9 counterexample, two failures of strict monotonicity without zero
clipping.  (1) Plateau: reserves `(10^-9, 10^-9)` wad tokens, tolerance
`1 %`, market prices `4.0` and `4.5` — both far outside the band on the
same side (`delta = 300 %` and `350 %`), yet the emitted input amounts
are equal and nonzero (`10^-9` tokens).  (2) Reversal: reserves
`(2e-9, 0.999999999e-9)` wad tokens, tolerance `1 %`, market prices
`2.5` and `3.5` — same side, `delta` about `25 %` and `75 %`, yet the
larger divergence yields a strictly smaller nonzero amount (`585786438`
versus `267949193`), because the heavily truncated pool constant leaves
both target reserves below the current first reserve. -/
theorem C9_counterexample :
    Mooniswap.set_price 4000000000000000000 1000000000 1000000000 1 =
      .ok (some ⟨Token.first, Token.second, 1000000000⟩) ∧
    Mooniswap.set_price 4500000000000000000 1000000000 1000000000 1 =
      .ok (some ⟨Token.first, Token.second, 1000000000⟩) ∧
    (4000000000000000000 * 100 : ℚ) /
        ((wadDiv 1000000000 1000000000 : ℤ) : ℚ) - 100 = 300 ∧
    (4500000000000000000 * 100 : ℚ) /
        ((wadDiv 1000000000 1000000000 : ℤ) : ℚ) - 100 = 350 ∧
    (1000000000 : ℤ) ≠ 0 ∧
    Mooniswap.set_price 2500000000000000000 2000000000 999999999 1 =
      .ok (some ⟨Token.first, Token.second, 585786438⟩) ∧
    Mooniswap.set_price 3500000000000000000 2000000000 999999999 1 =
      .ok (some ⟨Token.first, Token.second, 267949193⟩) ∧
    (1 : ℚ) < (2500000000000000000 * 100 : ℚ) /
        ((wadDiv 2000000000 999999999 : ℤ) : ℚ) - 100 ∧
    (2500000000000000000 * 100 : ℚ) /
        ((wadDiv 2000000000 999999999 : ℤ) : ℚ) - 100 <
      (3500000000000000000 * 100 : ℚ) /
        ((wadDiv 2000000000 999999999 : ℤ) : ℚ) - 100 ∧
    (267949193 : ℤ) < 585786438 ∧ (267949193 : ℤ) ≠ 0 := by
  refine ⟨mooni_eval_plateau_lo, mooni_eval_plateau_hi, ?_, ?_, by decide,
    mooni_eval_decrease_lo, mooni_eval_decrease_hi, ?_, ?_,
    by decide, by decide⟩
  · rw [(by decide : wadDiv 1000000000 1000000000 = 1000000000000000000)]
    norm_num
  · rw [(by decide : wadDiv 1000000000 1000000000 = 1000000000000000000)]
    norm_num
  · rw [(by decide : wadDiv 2000000000 999999999 = 2000000002000000002)]
    norm_num
  · rw [(by decide : wadDiv 2000000000 999999999 = 2000000002000000002)]
    norm_num

/-- C9 amended: holding reserves fixed, the input amount is weakly — not
strictly — monotone in the divergence, on each side in its regular
regime.  Sell-first-token side: if the target first reserve at the
smaller price is already at least the current first reserve, a larger
market price yields an at-least-as-large first-token amount.
Sell-second-token side: if the target second reserve at the larger price
already strictly exceeds the current second reserve, a smaller market
price (larger divergence) yields an at-least-as-large second-token
amount.  Both regularity provisos are necessary — outside them the
amount can strictly decrease as the divergence grows (second part of the
counterexample) — and strictness fails on truncation plateaus (first
part). -/
theorem C9_amended_weak_monotonicity (mp1 mp2 ra rb : ℤ)
    (hra : 0 ≤ ra) (hrb : 0 ≤ rb) (hmp1 : 0 < mp1) (h12 : mp1 ≤ mp2) :
    (ra ≤ wadSqrt (wadMul (wadMul ra rb) mp1) →
      (Mooniswap.get_amounts mp1 ra rb).first_token_amount_delta ≤
        (Mooniswap.get_amounts mp2 ra rb).first_token_amount_delta) ∧
    (rb < wadSqrt (wadDiv (wadMul ra rb) mp2) →
      (Mooniswap.get_amounts mp2 ra rb).second_token_amount_delta ≤
        (Mooniswap.get_amounts mp1 ra rb).second_token_amount_delta) := by
  have hk0 : 0 ≤ wadMul ra rb := wadMul_nonneg hra hrb
  have hmp2 : 0 < mp2 := lt_of_lt_of_le hmp1 h12
  have hnaMono : wadSqrt (wadMul (wadMul ra rb) mp1) ≤
      wadSqrt (wadMul (wadMul ra rb) mp2) := by
    apply wadSqrt_mono
    exact tdiv_le_tdiv WAD_pos (mul_nonneg hk0 (le_of_lt hmp1))
      (mul_le_mul_of_nonneg_left h12 hk0)
  constructor
  · intro hsell
    rw [Mooniswap.get_amounts_first, Mooniswap.get_amounts_first]
    split
    · split
      · omega
      · omega
    · split
      · omega
      · omega
  · intro hsell
    have hnbMono : wadSqrt (wadDiv (wadMul ra rb) mp2) ≤
        wadSqrt (wadDiv (wadMul ra rb) mp1) := by
      apply wadSqrt_mono
      exact tdiv_le_tdiv_left (mul_nonneg hk0 (le_of_lt WAD_pos)) hmp1 h12
    have hA2 : wadSqrt (wadMul (wadMul ra rb) mp2) ≤ ra := by
      by_contra hcon
      push_neg at hcon
      exact absurd (second_target_le_of_first_target_gt hmp2 hra hrb hcon)
        (not_le.mpr hsell)
    have hA1 : wadSqrt (wadMul (wadMul ra rb) mp1) ≤ ra :=
      le_trans hnaMono hA2
    rw [Mooniswap.get_amounts_second, Mooniswap.get_amounts_second,
      if_neg (not_lt.mpr hA2), if_neg (not_lt.mpr hA1)]
    omega

/-- C9 witness for the amended claim, exercising both sides.
Sell-first side: reserves `(1000, 1000)`, market prices `1.1` and `1.2`.
Sell-second side: reserves `(1000, 2000)`, market prices `0.35` and
`0.4`. -/
theorem C9_witness :
    (1000000000000000000000 : ℤ) ≤
      wadSqrt (wadMul (wadMul 1000000000000000000000
        1000000000000000000000) 1100000000000000000) ∧
    (Mooniswap.get_amounts 1100000000000000000 1000000000000000000000
        1000000000000000000000).first_token_amount_delta ≤
      (Mooniswap.get_amounts 1200000000000000000 1000000000000000000000
        1000000000000000000000).first_token_amount_delta ∧
    (2000000000000000000000 : ℤ) <
      wadSqrt (wadDiv (wadMul 1000000000000000000000
        2000000000000000000000) 400000000000000000) ∧
    (Mooniswap.get_amounts 400000000000000000 1000000000000000000000
        2000000000000000000000).second_token_amount_delta ≤
      (Mooniswap.get_amounts 350000000000000000 1000000000000000000000
        2000000000000000000000).second_token_amount_delta := by
  have hsell : (1000000000000000000000 : ℤ) ≤
      wadSqrt (wadMul (wadMul 1000000000000000000000
        1000000000000000000000) 1100000000000000000) := by
    rw [(by decide : wadMul (wadMul 1000000000000000000000
        1000000000000000000000) 1100000000000000000
        = 1100000000000000000000000), wadSqrt_1100000]
    decide
  have hsB : (2000000000000000000000 : ℤ) <
      wadSqrt (wadDiv (wadMul 1000000000000000000000
        2000000000000000000000) 400000000000000000) := by
    rw [(by decide : wadDiv (wadMul 1000000000000000000000
        2000000000000000000000) 400000000000000000
        = 5000000000000000000000000), wadSqrt_5000000]
    decide
  obtain ⟨hA, -⟩ := C9_amended_weak_monotonicity 1100000000000000000
    1200000000000000000 1000000000000000000000 1000000000000000000000
    (by decide) (by decide) (by decide) (by decide)
  obtain ⟨-, hB⟩ := C9_amended_weak_monotonicity 350000000000000000
    400000000000000000 1000000000000000000000 2000000000000000000000
    (by decide) (by decide) (by decide) (by decide)
  exact ⟨hsell, hA hsell, hsB, hB hsB⟩

/-! ## C10 -/

/-- C10 counterexample: at market price `1.5` and reserves
`(10^-9, 10^-9)` wad tokens, the Mooniswap `second_token_amount_delta` is
`-10^-9` (negative) while the absolute value of the Uniswap `limit` is
`+10^-9`; the two implementations do not agree as claimed. -/
theorem C10_counterexample :
    ¬ (|(UniswapV2.get_amounts 1500000000000000000 1000000000
          1000000000).limit| =
        (Mooniswap.get_amounts 1500000000000000000 1000000000
          1000000000).second_token_amount_delta) := by
  rw [UniswapV2.get_amounts_limit, Mooniswap.get_amounts_second,
      (by decide : wadMul 1000000000 1000000000 = 1),
      (by decide : wadMul 1 1500000000000000000 = 1),
      (by decide : wadDiv 1 1500000000000000000 = 0),
      wadSqrt_one, wadSqrt_zero]
  norm_num

/-- C10 amended: for all inputs,
`|uniswap.exact_value| = mooniswap.first_token_amount_delta`, and the
Uniswap `limit` agrees with the Mooniswap `second_token_amount_delta`
only up to absolute value. -/
theorem C10_amended_agreement (mp ra rb : ℤ) :
    |(UniswapV2.get_amounts mp ra rb).exact_value| =
      (Mooniswap.get_amounts mp ra rb).first_token_amount_delta ∧
    |(UniswapV2.get_amounts mp ra rb).limit| =
      |(Mooniswap.get_amounts mp ra rb).second_token_amount_delta| := by
  rw [UniswapV2.get_amounts_exact_value, UniswapV2.get_amounts_limit,
      Mooniswap.get_amounts_first, Mooniswap.get_amounts_second]
  constructor
  · split
    · next h => rw [abs_sub_comm, abs_of_nonneg (by omega)]
    · next h => rw [abs_of_nonneg (by omega)]
  · split
    · next h => rw [abs_sub_comm]
    · rfl

end PyMaker
